import Mathlib

/-!
Verification of the network-device backup program (backup-server.py).

The program drives interactive terminal sessions to a fleet of network
devices, captures each configuration, sanitizes the captured text, and
persists it, with one concurrent task per device aggregated by a batch
orchestrator.  Strings are embedded as lists of characters; the
stateful channel reads of the interactive loops are injected as
explicit event lists; the thread pool is modelled by the list of
per-task outcomes in submission order.
-/

namespace BackupServer

/-- Python strings are embedded as lists of characters. -/
abbrev Str := List Char

/-- The `commands` argument of `clean_config_output` is either a single
command string or a list of command strings, mirroring the
`isinstance(commands, list)` test in the source. -/
inductive Commands where
  | str (c : Str)
  | list (cs : List Str)
deriving DecidableEq

/-- The command strings a `Commands` value denotes. -/
def cmdStrings : Commands → List Str
  | Commands.str c => [c]
  | Commands.list cs => cs

/-- The alternatives of the regex the source builds: `re.escape(commands)`
for a single string, `'|'.join(re.escape(cmd) for cmd in commands)` for a
list.  For the empty list the join is the empty pattern, which has the
single empty-string alternative (it matches everywhere); otherwise the
alternatives are exactly the escaped command strings. -/
def patternAlts : Commands → List Str
  | Commands.str c => [c]
  | Commands.list [] => [[]]
  | Commands.list cs => cs

/-- The characters `str.lstrip()` and `str.strip()` remove (the ASCII
whitespace characters Python strips). -/
def isPyWhitespace (c : Char) : Bool :=
  c = ' ' || c = '\t' || c = '\n' || c = '\x0d' || c = '\x0b' || c = '\x0c'

/-- Python `str.lstrip()`. -/
def lstrip (s : Str) : Str := s.dropWhile isPyWhitespace

/-- Python `str.strip()`: drop whitespace at both ends. -/
def strip (s : Str) : Str :=
  ((lstrip s).reverse.dropWhile isPyWhitespace).reverse

/-- One attempt of the alternation at a fixed position: the first
alternative (in list order) that is a prefix of the suffix `s` matches,
returning the length of the matched text.  This is how a Python regex
`a|b|c` of literals behaves at a single position. -/
def matchAt (pats : List Str) (s : Str) : Option Nat :=
  pats.findSome? fun p => if p.isPrefixOf s then some p.length else none

/-- Python `re.search` over a literal alternation: try the alternation at
every position from the left (including the position after the last
character), returning `(start, end)` of the leftmost match. -/
def reSearch (pats : List Str) : Str → Option (Nat × Nat)
  | [] =>
    match matchAt pats [] with
    | some len => some (0, len)
    | none => none
  | c :: t =>
    match matchAt pats (c :: t) with
    | some len => some (0, len)
    | none => (reSearch pats t).map fun q => (q.1 + 1, q.2 + 1)

/-- `NetworkBackup.clean_config_output` (lines 27-40): search the captured
text for the first occurrence of the command echo (any command, for a
list); if found, keep only the text after the match, with leading
whitespace stripped; otherwise return the text unchanged. -/
def clean_config_output (config : Str) (commands : Commands) : Str :=
  match reSearch (patternAlts commands) config with
  | some (_, e) => lstrip (config.drop e)
  | none => config

/-- `p` occurs in `s` starting at index `i`. -/
def occursAt (p s : Str) (i : Nat) : Prop := p.isPrefixOf (s.drop i) = true

instance (p s : Str) (i : Nat) : Decidable (occursAt p s i) := by
  unfold occursAt; infer_instance

/-- Python `pat in s` (substring containment). -/
def containsSub (pat : Str) : Str → Bool
  | [] => pat.isPrefixOf []
  | c :: t => pat.isPrefixOf (c :: t) || containsSub pat t

/-- One observation of the interactive channel: either `recv_ready()` was
true and `recv` returned `data`, or `recv_ready()` was false (the code
then sleeps and polls again). -/
inductive ShellEvent where
  | recv (data : Str)
  | noData

/-- Whether `re.search(r'<.*?>\s*$', data)` finds a match: some position
holds a `<`, a later position holds a `>`, no newline lies strictly
between them (`.` does not match newline), and every character after the
`>` is whitespace (consumed by the trailing whitespace repetition, with
the end anchor tolerating at most a final newline, itself whitespace). -/
def h3c_prompt_match (data : Str) : Bool :=
  (List.range data.length).any fun i =>
    (List.range data.length).any fun j =>
      decide (i < j) && decide (data.getD i ' ' = '<') && decide (data.getD j ' ' = '>')
        && ((data.drop (i + 1)).take (j - i - 1)).all (fun c => !decide (c = '\n'))
        && (data.drop (j + 1)).all isPyWhitespace

/-- The h3c/h3c_core reading loop of `get_backup` (lines 193-203): append
each received chunk to the output, stop when the chunk matches the
command-prompt pattern; when no data is ready, sleep and poll again.
The event list is the sequence of channel observations; `none` means the
loop was still running (neither completed nor failed) after consuming
them all — the code has no timeout branch. -/
def h3c_readLoop : List ShellEvent → Str → Option Str
  | [], _ => none
  | ShellEvent.noData :: rest, acc => h3c_readLoop rest acc
  | ShellEvent.recv d :: rest, acc =>
    if h3c_prompt_match d then some (acc ++ d) else h3c_readLoop rest (acc ++ d)

/-- The pagination trigger of the cisco_wlc loop (`more_flag`, line 216). -/
def more_flag : Str := "Press Enter to continue".toList

/-- The completion marker of the cisco_wlc loop (`end_flag`, line 217). -/
def end_flag : Str := "(Cisco Controller) >?".toList

/-- The break condition of the cisco_wlc reading loop (line 227):
complete only when the chunk contains the end marker and does not
contain the pagination trigger. -/
def wlc_complete (data : Str) : Bool :=
  containsSub end_flag data && !(containsSub more_flag data)

/-- The cisco_wlc reading loop of `get_backup` (lines 219-231): append
each chunk, send continuation keystrokes on the pagination trigger, and
break only when `wlc_complete` holds of the chunk. -/
def wlc_readLoop : List ShellEvent → Str → Option Str
  | [], _ => none
  | ShellEvent.noData :: rest, acc => wlc_readLoop rest acc
  | ShellEvent.recv d :: rest, acc =>
    if wlc_complete d then some (acc ++ d) else wlc_readLoop rest (acc ++ d)

/-- The first waiting loop of `wlc_shell_login` (lines 160-167):
accumulate received data until the buffer contains the username prompt;
when no data is ready, sleep and poll again.  `none` means the loop was
still waiting after all observed events — again there is no timeout. -/
def wlc_login_wait : List ShellEvent → Str → Option Str
  | [], _ => none
  | ShellEvent.noData :: rest, buff => wlc_login_wait rest buff
  | ShellEvent.recv d :: rest, buff =>
    if containsSub ("User:".toList) (buff ++ d) then some (buff ++ d)
    else wlc_login_wait rest (buff ++ d)

/-- Accumulator loop of `execute_commands` (lines 133-151): each list
element is the captured text of one command (`none` when executing that
command raised, in which case the function logs and returns the empty
string, discarding everything captured so far); after the last command
the accumulated output is returned with `strip()` applied. -/
def execute_commandsGo : List (Option Str) → Str → Str
  | [], acc => strip acc
  | none :: _, _ => []
  | some c :: rest, acc => execute_commandsGo rest (acc ++ c)

/-- `NetworkBackup.execute_commands` (lines 128-151), with the per-command
channel reads injected as `results`. -/
def execute_commands (results : List (Option Str)) : Str :=
  execute_commandsGo results []

/-- The channel writes `execute_commands` performs: exactly one
`exec_command(cmd + newline)` per command, in order; no other keystroke
(in particular no pagination continuation) is ever written. -/
def execute_commands_sends (commands : List Str) : List Str :=
  commands.map fun c => c ++ ['\n']

/-- The default branch of `get_backup` (lines 247-254): a list profile
runs `execute_commands`; a string profile runs `exec_command` once and
returns the captured bytes verbatim (injected as `singleCapture`). -/
def get_backup_default (command : Commands) (listResults : List (Option Str))
    (singleCapture : Str) : Str :=
  match command with
  | Commands.list _ => execute_commands listResults
  | Commands.str _ => singleCapture

/-- The Command Profile Registry `self.backup_commands` (lines 81-92). -/
def backup_commands : List (String × Commands) := [
  ("juniper_qfx", Commands.str ("show configuration | display set | no-more".toList)),
  ("juniper_srx", Commands.str ("show configuration | display set | no-more".toList)),
  ("cisco_ios", Commands.str ("show running-config".toList)),
  ("cisco_asa", Commands.list ["terminal pager 0".toList, "show running-config".toList]),
  ("cisco_wlc", Commands.list ["show running-config".toList]),
  ("huawei", Commands.str ("display current-configuration".toList)),
  ("h3c", Commands.list ["screen-length disable".toList, "display current-configuration".toList]),
  ("h3c_core", Commands.list ["screen-length disable".toList, "display current-configuration".toList]),
  ("fortinet", Commands.str ("show".toList)),
  ("hillstone", Commands.str ("show running-config".toList))]

/-- Python dict indexing `self.backup_commands[platform]`, as a lookup
whose `none` case is the raised `KeyError`. -/
def lookupRegistry (p : String) : Option Commands :=
  (backup_commands.find? fun kv => kv.1 == p).map (·.2)

/-- A device entry of the inventory, as the string-valued fields the
program indexes; indexing a missing key raises `KeyError`. -/
abbrev Device := List (String × String)

/-- Python `device[k]`: the value, or a raised `KeyError`. -/
def dictGet (d : Device) (k : String) : Except String String :=
  match d.find? fun kv => kv.1 == k with
  | some kv => Except.ok kv.2
  | none => Except.error ("KeyError: " ++ k)

/-- Python `device.get(k)`: the value or `None`, never raising. -/
def findVal (d : Device) (k : String) : Option String :=
  (d.find? fun kv => kv.1 == k).map (·.2)

/-- Python `a or b` on optional strings: `b` when `a` is `None` or the
empty (falsy) string. -/
def pyOr (a b : Option String) : Option String :=
  match a with
  | some v => if v == "" then b else some v
  | none => b

/-- `NetworkBackup.get_backup` (lines 177-260) at the granularity the
orchestrator observes: the registry lookup raises `KeyError` for an
unknown platform, caught by the dedicated handler and converted to
`None`; for a known platform the per-platform interactive session (pure
channel I/O, every exception caught by the blanket handler and converted
to `None`) is injected as `interaction`. -/
def get_backup (platform : String) (interaction : Option Str) : Option Str :=
  match lookupRegistry platform with
  | none => none
  | some _ => interaction

/-- Python truthiness of the `commands` argument of `save_config`: a
non-empty string or a non-empty list. -/
def truthyCommands : Commands → Bool
  | Commands.str c => !c.isEmpty
  | Commands.list l => !l.isEmpty

/-- `NetworkBackup.save_config` (lines 262-287): return `False` without
writing when the raw captured text is empty; otherwise sanitize when a
truthy `commands` was passed, create the directory (an `OSError` from
`os.makedirs`, which stands outside the `try`, escapes), and write the
file inside the `try` (a write failure is caught and returns `False`).
`Except.ok none` is a `False` return with no file content written;
`Except.ok (some c)` is a `True` return having written content `c`. -/
def save_config (config : Str) (commands : Option Commands)
    (mkdirOk writeOk : Bool) : Except String (Option Str) :=
  if config.isEmpty then Except.ok none
  else
    let cfg := match commands with
      | some cs => if truthyCommands cs then clean_config_output config cs else config
      | none => config
    if !mkdirOk then Except.error "OSError: makedirs"
    else if !writeOk then Except.ok none
    else Except.ok (some cfg)

/-- `NetworkBackup.fortinet_api_backup` (lines 42-72): index
`device['hostip']` (outside any `try`: a `KeyError` escapes), resolve the
API key with Python `or` falsy semantics, fail without a request when the
key is missing or empty, then perform the GET inside the `try`: on
status 200 the file is written (`os.makedirs`/`open`/`write`, lines
62-64, all inside the `try`: a filesystem exception there is caught and
returns `False` with no complete file) and on a successful write the
response body is persisted verbatim and `True` returned; any other
status, a transport exception, or a `KeyError` while building the file
name inside the `try` returns `False` with nothing written.  The HTTP
outcome is injected as `http` (`Except.error` a transport exception,
`Except.ok (status, body)` a response) and the outcome of the in-`try`
filesystem write as `persistOk`. -/
def fortinet_api_backup (dev : Device) (credApiKey : Option String)
    (http : Except Unit (Nat × Str)) (persistOk : Bool) :
    Except String (Bool × Option Str) :=
  match dictGet dev "hostip" with
  | Except.error e => Except.error e
  | Except.ok _ =>
    match pyOr (findVal dev "api_key") credApiKey with
    | none => Except.ok (false, none)
    | some k =>
      if k == "" then Except.ok (false, none)
      else
        match http with
        | Except.error _ => Except.ok (false, none)
        | Except.ok (status, body) =>
          if status == 200 then
            match findVal dev "name", findVal dev "groups" with
            | some _, some _ =>
              if persistOk then Except.ok (true, some body)
              else Except.ok (false, none)
            | _, _ => Except.ok (false, none)
          else Except.ok (false, none)

/-- `NetworkBackup.backup_device` (lines 289-313): route fortinet devices
to the API path; otherwise index the device fields (uncaught `KeyError`
on a missing key escapes the task), connect (connection errors are caught
inside `connect_device` and yield `False`), run `get_backup`, refuse
falsy captures, and save.  The result pairs the returned boolean with
the file content written (`none` when no file was written).  A task
performs at most one filesystem write, so the single injected `writeOk`
is the outcome of that write on either path: the in-`try` write of the
API route or the in-`try` write of `save_config` (whose directory
creation has its own, uncaught, injected outcome `mkdirOk`). -/
def backup_device (dev : Device) (credApiKey : Option String)
    (http : Except Unit (Nat × Str)) (connectOk : Bool) (interaction : Option Str)
    (mkdirOk writeOk : Bool) : Except String (Bool × Option Str) :=
  match dictGet dev "platform" with
  | Except.error e => Except.error e
  | Except.ok platform =>
    if platform == "fortinet" then
      fortinet_api_backup dev credApiKey http writeOk
    else
      match dictGet dev "hostip" with
      | Except.error e => Except.error e
      | Except.ok _ =>
        if !connectOk then Except.ok (false, none)
        else
          match get_backup platform interaction with
          | none => Except.ok (false, none)
          | some config =>
            if config.isEmpty then Except.ok (false, none)
            else
              match dictGet dev "name", dictGet dev "groups" with
              | Except.error e, _ => Except.error e
              | _, Except.error e => Except.error e
              | Except.ok _, Except.ok _ =>
                match lookupRegistry platform with
                | none => Except.error "KeyError: platform"
                | some cmds =>
                  match save_config config (some cmds) mkdirOk writeOk with
                  | Except.error e => Except.error e
                  | Except.ok w => Except.ok (w.isSome, w)

/-- The aggregation of `run_backup` (lines 315-327):
`sum(f.result() for f in futures if f.result())` consumes the futures in
submission order; the first `result()` that re-raises a task exception
aborts the sum (and the summary), a `True` contributes one. -/
def sumResults : List (Except String Bool) → Except String Nat
  | [] => Except.ok 0
  | Except.error e :: _ => Except.error e
  | Except.ok b :: rest => (sumResults rest).map fun s => (if b then 1 else 0) + s

/-- `NetworkBackup.run_backup` (lines 315-327) over the per-task outcomes
in submission order: on success the pair is the logged summary
`(success, total)`. -/
def run_backup (outcomes : List (Except String Bool)) : Except String (Nat × Nat) :=
  (sumResults outcomes).map fun s => (s, outcomes.length)

/-! ### Lemmas about the literal-alternation search -/

theorem matchAt_sound {pats : List Str} {s : Str} {len : Nat}
    (h : matchAt pats s = some len) :
    ∃ p, p ∈ pats ∧ p.isPrefixOf s = true ∧ len = p.length := by
  induction pats with
  | nil => simp [matchAt] at h
  | cons p ps ih =>
    rw [matchAt, List.findSome?] at h
    by_cases hp : p.isPrefixOf s
    · simp only [hp, if_pos] at h
      exact ⟨p, List.mem_cons_self .., hp, (Option.some.injEq .. ▸ h).symm⟩
    · simp only [hp, if_neg, Bool.false_eq_true, if_false] at h
      obtain ⟨q, hq, hpre, hlen⟩ := ih h
      exact ⟨q, List.mem_cons_of_mem _ hq, hpre, hlen⟩

theorem matchAt_ne_none {pats : List Str} {s q : Str}
    (hq : q ∈ pats) (hpre : q.isPrefixOf s = true) :
    matchAt pats s ≠ none := by
  induction pats with
  | nil => cases hq
  | cons p ps ih =>
    rw [matchAt, List.findSome?]
    by_cases hp : p.isPrefixOf s
    · simp [hp]
    · simp only [hp, Bool.false_eq_true, if_false]
      rcases List.mem_cons.mp hq with rfl | hmem
      · exact absurd hpre hp
      · exact ih hmem

theorem reSearch_sound {pats : List Str} {s : Str} {i e : Nat}
    (h : reSearch pats s = some (i, e)) :
    ∃ p, p ∈ pats ∧ occursAt p s i ∧ e = i + p.length := by
  induction s generalizing i e with
  | nil =>
    rw [reSearch] at h
    cases hm : matchAt pats [] with
    | none => rw [hm] at h; cases h
    | some len =>
      rw [hm] at h
      obtain ⟨hi, he⟩ := Prod.mk.injEq .. ▸ Option.some.injEq .. ▸ h
      obtain ⟨p, hp, hpre, hlen⟩ := matchAt_sound hm
      exact ⟨p, hp, by simpa [occursAt, ← hi] using hpre, by omega⟩
  | cons c t ih =>
    rw [reSearch] at h
    cases hm : matchAt pats (c :: t) with
    | some len =>
      rw [hm] at h
      obtain ⟨hi, he⟩ := Prod.mk.injEq .. ▸ Option.some.injEq .. ▸ h
      obtain ⟨p, hp, hpre, hlen⟩ := matchAt_sound hm
      exact ⟨p, hp, by simpa [occursAt, ← hi] using hpre, by omega⟩
    | none =>
      rw [hm] at h
      cases hr : reSearch pats t with
      | none => rw [hr] at h; cases h
      | some q =>
        rw [hr, Option.map_some'] at h
        obtain ⟨hi, he⟩ := Prod.mk.injEq .. ▸ Option.some.injEq .. ▸ h
        obtain ⟨p, hp, hocc, hlen⟩ := ih (i := q.1) (e := q.2) (by rw [hr])
        refine ⟨p, hp, ?_, by omega⟩
        have : (c :: t).drop (q.1 + 1) = t.drop q.1 := List.drop_succ_cons ..
        simpa [occursAt, ← hi, this] using hocc

theorem reSearch_min {pats : List Str} {s : Str} {i e : Nat}
    (h : reSearch pats s = some (i, e)) :
    ∀ q ∈ pats, ∀ j, occursAt q s j → i ≤ j := by
  induction s generalizing i e with
  | nil =>
    intro q hq j hocc
    rw [reSearch] at h
    cases hm : matchAt pats [] with
    | none => rw [hm] at h; cases h
    | some len =>
      rw [hm] at h
      obtain ⟨hi, _⟩ := Prod.mk.injEq .. ▸ Option.some.injEq .. ▸ h
      omega
  | cons c t ih =>
    intro q hq j hocc
    rw [reSearch] at h
    cases hm : matchAt pats (c :: t) with
    | some len =>
      rw [hm] at h
      obtain ⟨hi, _⟩ := Prod.mk.injEq .. ▸ Option.some.injEq .. ▸ h
      omega
    | none =>
      rw [hm] at h
      cases hr : reSearch pats t with
      | none => rw [hr] at h; cases h
      | some pr =>
        rw [hr, Option.map_some'] at h
        obtain ⟨hi, _⟩ := Prod.mk.injEq .. ▸ Option.some.injEq .. ▸ h
        cases j with
        | zero =>
          exact absurd (matchAt_ne_none hq (by simpa [occursAt] using hocc)) (by simp [hm])
        | succ j' =>
          have hocc' : occursAt q t j' := by
            have : (c :: t).drop (j' + 1) = t.drop j' := List.drop_succ_cons ..
            simpa [occursAt, this] using hocc
          have := ih (i := pr.1) (e := pr.2) (by rw [hr]) q hq j' hocc'
          omega

theorem reSearch_none {pats : List Str} {s : Str}
    (h : reSearch pats s = none) :
    ∀ q ∈ pats, ∀ j, ¬ occursAt q s j := by
  induction s with
  | nil =>
    intro q hq j hocc
    have hpre : q.isPrefixOf ([] : Str) = true := by
      simpa [occursAt, List.drop_nil] using hocc
    rw [reSearch] at h
    cases hm : matchAt pats [] with
    | some len => rw [hm] at h; cases h
    | none => exact matchAt_ne_none hq hpre hm
  | cons c t ih =>
    intro q hq j hocc
    rw [reSearch] at h
    cases hm : matchAt pats (c :: t) with
    | some len => rw [hm] at h; cases h
    | none =>
      rw [hm] at h
      cases j with
      | zero => exact matchAt_ne_none hq (by simpa [occursAt] using hocc) hm
      | succ j' =>
        cases hr : reSearch pats t with
        | some pr => rw [hr, Option.map_some'] at h; cases h
        | none =>
          have hocc' : occursAt q t j' := by
            have : (c :: t).drop (j' + 1) = t.drop j' := List.drop_succ_cons ..
            simpa [occursAt, this] using hocc
          exact ih hr q hq j' hocc'

theorem patternAlts_eq_cmdStrings {commands : Commands}
    (h : commands ≠ Commands.list []) :
    patternAlts commands = cmdStrings commands := by
  cases commands with
  | str c => rfl
  | list cs => cases cs with
    | nil => exact absurd rfl h
    | cons a as => rfl

/-! ### Helper lemmas -/

theorem execute_commandsGo_map_some (l : List Str) (acc : Str) :
    execute_commandsGo (l.map some) acc = strip (acc ++ List.flatten l) := by
  induction l generalizing acc with
  | nil => simp [execute_commandsGo]
  | cons c t ih =>
    simp only [List.map_cons, execute_commandsGo, List.flatten_cons, ih,
      List.append_assoc]

theorem execute_commandsGo_none {results : List (Option Str)}
    (h : none ∈ results) : ∀ acc, execute_commandsGo results acc = [] := by
  induction results with
  | nil => cases h
  | cons r rest ih =>
    intro acc
    cases r with
    | none => rfl
    | some c =>
      rcases List.mem_cons.mp h with h' | h'
      · cases h'
      · exact ih h' (acc ++ c)

theorem sumResults_map_ok (l : List Bool) :
    sumResults (l.map Except.ok) = Except.ok (l.countP fun b => b) := by
  induction l with
  | nil => rfl
  | cons b t ih =>
    simp only [List.map_cons, sumResults, ih, Option.map_some', Except.map,
      List.countP_cons]
    cases b with
    | false => simp
    | true => simp [Nat.add_comm]

theorem isSome_false_eq_none {α : Type} {w : Option α}
    (h : w.isSome = false) : w = none := by
  cases w with
  | none => rfl
  | some a => exact absurd h (by simp)

theorem save_config_mkdirOk_ne_error (config : Str) (commands : Option Commands)
    (writeOk : Bool) (e : String) :
    ¬ save_config config commands true writeOk = Except.error e := by
  intro h
  unfold save_config at h
  repeat' split at h
  all_goals simp_all

theorem fortinet_api_backup_ne_error {dev : Device} {credApiKey : Option String}
    {http : Except Unit (Nat × Str)} {persistOk : Bool} {v : String}
    (hh : dictGet dev "hostip" = Except.ok v) :
    ∀ e, ¬ fortinet_api_backup dev credApiKey http persistOk = Except.error e := by
  intro e h
  unfold fortinet_api_backup at h
  repeat' split at h
  all_goals simp_all

theorem fortinet_api_backup_shape {dev : Device} {credApiKey : Option String}
    {http : Except Unit (Nat × Str)} {persistOk : Bool} {b : Bool} {w : Option Str}
    (h : fortinet_api_backup dev credApiKey http persistOk = Except.ok (b, w)) :
    b = w.isSome := by
  unfold fortinet_api_backup at h
  repeat' split at h
  all_goals cases h
  all_goals rfl

theorem backup_device_no_error {dev : Device} {credApiKey : Option String}
    {http : Except Unit (Nat × Str)} {connectOk : Bool} {interaction : Option Str}
    {writeOk : Bool} {pv hv nv gv : String}
    (hplat : dictGet dev "platform" = Except.ok pv)
    (hh : dictGet dev "hostip" = Except.ok hv)
    (hn : dictGet dev "name" = Except.ok nv)
    (hg : dictGet dev "groups" = Except.ok gv) :
    ∀ e, ¬ backup_device dev credApiKey http connectOk interaction true writeOk
      = Except.error e := by
  intro e h
  unfold backup_device at h
  repeat' split at h
  all_goals
    simp_all [get_backup, fortinet_api_backup_ne_error hh,
      save_config_mkdirOk_ne_error]

/-! ### Claim theorems -/

/-- C1 (counterexample): for the empty command list — a valid command
specification, denoting no command strings at all, so no command string
occurs in the text — the claim requires the input unchanged, but the code
joins the empty list into the empty regex pattern, which matches at
position 0, so the text comes back with its leading whitespace removed. -/
theorem C1_empty_command_list_counterexample :
    cmdStrings (Commands.list []) = [] ∧
    clean_config_output (" x".toList) (Commands.list []) ≠ " x".toList := by
  exact ⟨rfl, by decide⟩

/-- C1 (amended): for a single command string or a nonempty list of
command strings, if some command string occurs in the captured text the
Sanitizer returns the suffix strictly after the end of a leftmost
occurrence of a command string, with leading whitespace removed;
otherwise it returns the text unchanged. -/
theorem C1_sanitizer_correct (config : Str) (commands : Commands)
    (hne : commands ≠ Commands.list []) :
    ((∃ p, p ∈ cmdStrings commands ∧ ∃ i, occursAt p config i) →
      ∃ p i, p ∈ cmdStrings commands ∧ occursAt p config i ∧
        (∀ q, q ∈ cmdStrings commands → ∀ j, occursAt q config j → i ≤ j) ∧
        clean_config_output config commands = lstrip (config.drop (i + p.length))) ∧
    ((∀ p, p ∈ cmdStrings commands → ∀ i, ¬ occursAt p config i) →
      clean_config_output config commands = config) := by
  have halts := patternAlts_eq_cmdStrings hne
  constructor
  · rintro ⟨p, hp, i, hocc⟩
    have hp' : p ∈ patternAlts commands := by rw [halts]; exact hp
    cases hr : reSearch (patternAlts commands) config with
    | none => exact absurd hocc (reSearch_none hr p hp' i)
    | some pr =>
      obtain ⟨i0, e0⟩ := pr
      obtain ⟨p0, hp0, hocc0, he0⟩ := reSearch_sound hr
      refine ⟨p0, i0, by rw [← halts]; exact hp0, hocc0, ?_, ?_⟩
      · intro q hq j hoccj
        exact reSearch_min hr q (by rw [halts]; exact hq) j hoccj
      · simp [clean_config_output, hr, he0]
  · intro hno
    cases hr : reSearch (patternAlts commands) config with
    | none => simp [clean_config_output, hr]
    | some pr =>
      obtain ⟨i0, e0⟩ := pr
      obtain ⟨p0, hp0, hocc0, _⟩ := reSearch_sound hr
      exact absurd hocc0 (hno p0 (by rw [← halts]; exact hp0) i0)

/-- C1 (witness): concrete run of the amended theorem on the captured
text with one echo of the command at index 2. -/
theorem C1_sanitizer_correct_witness :
    ∃ p i, p ∈ cmdStrings (Commands.str ("cmd".toList)) ∧
      occursAt p ("x cmd  rest".toList) i ∧
      (∀ q, q ∈ cmdStrings (Commands.str ("cmd".toList)) →
        ∀ j, occursAt q ("x cmd  rest".toList) j → i ≤ j) ∧
      clean_config_output ("x cmd  rest".toList) (Commands.str ("cmd".toList)) =
        lstrip (("x cmd  rest".toList).drop (i + p.length)) :=
  (C1_sanitizer_correct ("x cmd  rest".toList) (Commands.str ("cmd".toList))
    (by simp)).1 ⟨"cmd".toList, by simp [cmdStrings], 2, by decide⟩

/-- C2: in the cisco_wlc reading loop, a chunk matched by the pagination
trigger never satisfies the completion condition, even when the
completion marker also occurs in the chunk, so the automaton does not
stop reading on that chunk: the loop continues with the chunk appended
to the capture buffer. -/
theorem C2_pagination_precedence (data : Str)
    (h : containsSub more_flag data = true) :
    wlc_complete data = false ∧
    ∀ rest acc, wlc_readLoop (ShellEvent.recv data :: rest) acc
      = wlc_readLoop rest (acc ++ data) := by
  have hc : wlc_complete data = false := by simp [wlc_complete, h]
  refine ⟨hc, fun rest acc => ?_⟩
  simp [wlc_readLoop, hc]

/-- C2 (witness): the pagination trigger itself is a chunk the trigger
matches, and the loop does not complete on it. -/
theorem C2_pagination_precedence_witness :
    containsSub more_flag more_flag = true ∧ wlc_complete more_flag = false :=
  ⟨by decide, (C2_pagination_precedence more_flag (by decide)).1⟩

/-- C3: the reading loop of the h3c platforms and the login-waiting loop
of the WLC never terminate while no data arrives — after any number of
polling cycles in which the channel reports no data, both loops are
still running; the code has no wait budget and no timeout transition, so
it polls indefinitely, contradicting the bounded Failed(Timeout)
requirement. -/
theorem C3_polling_never_times_out :
    ∀ (n : Nat) (acc buff : Str),
      h3c_readLoop (List.replicate n ShellEvent.noData) acc = none ∧
      wlc_login_wait (List.replicate n ShellEvent.noData) buff = none := by
  intro n
  induction n with
  | zero => exact fun acc buff => ⟨rfl, rfl⟩
  | succ k ih =>
    intro acc buff
    rw [List.replicate_succ]
    exact ⟨(ih acc buff).1, (ih acc buff).2⟩

/-- C4 (counterexample): `execute_commands` applies `strip()` to the
accumulated output, so for a single command whose captured text is a
line ending in a newline, the output is not the concatenation of the
captured texts. -/
theorem C4_strip_counterexample :
    execute_commands [some ("a\n".toList)] ≠ List.flatten ["a\n".toList] := by
  decide

/-- C4 (amended): for the default (no pagination/login) path, a
command-list profile returns the concatenation, in command order, of the
captured texts with leading and trailing whitespace stripped, a
single-command profile returns the captured text verbatim, and the only
keystrokes sent are the commands themselves each followed by a newline —
no pagination continuation is ever sent. -/
theorem C4_default_path_output :
    ∀ (captures : List Str) (single : Str) (cs : List Str)
      (lr : List (Option Str)) (c : Str),
      execute_commands (captures.map some) = strip (List.flatten captures) ∧
      get_backup_default (Commands.list cs) (captures.map some) single
        = strip (List.flatten captures) ∧
      get_backup_default (Commands.str c) lr single = single ∧
      (∀ s, s ∈ execute_commands_sends cs → ∃ cmd, cmd ∈ cs ∧ s = cmd ++ ['\n']) := by
  intro captures single cs lr c
  have h1 : execute_commands (captures.map some) = strip (List.flatten captures) := by
    simpa [execute_commands] using execute_commandsGo_map_some captures []
  refine ⟨h1, h1, rfl, ?_⟩
  intro s hs
  simp only [execute_commands_sends, List.mem_map] at hs
  obtain ⟨cmd, hcmd, rfl⟩ := hs
  exact ⟨cmd, hcmd, rfl⟩

/-- C4 (witness): concrete run of the amended theorem on one capture and
one command. -/
theorem C4_default_path_output_witness :
    execute_commands [some ("a\n".toList)] = strip (List.flatten ["a\n".toList]) ∧
    (∃ cmd, cmd ∈ ["show".toList] ∧ "show\n".toList = cmd ++ ['\n']) := by
  have h := C4_default_path_output ["a\n".toList] [] ["show".toList] [] []
  exact ⟨h.1, h.2.2.2 ("show\n".toList) (by decide)⟩

/-- C5 (counterexample): a directory-creation failure during persistence
is raised outside the `try` of `save_config`, escapes the task boundary,
and aborts the aggregation: `run_backup` re-raises it and emits no
summary, for a fully well-formed device entry. -/
theorem C5_makedirs_counterexample :
    run_backup [(backup_device
        [("platform", "cisco_ios"), ("hostip", "10.0.0.1"),
         ("name", "r1"), ("groups", "core")]
        none (Except.error ()) true (some ("hostname r1".toList)) false true).map
          Prod.fst]
      = Except.error "OSError: makedirs" := by rfl

/-- C5 (amended): for device entries carrying the required keys and with
directory creation succeeding, every per-device error (connection,
interaction, API, file write) is absorbed into an ordinary failed
result, the task never raises, and over any list of per-task boolean
results the Orchestrator emits the summary with the success and total
counts. -/
theorem C5_orchestrator_errors_contained
    (dev : Device) (credApiKey : Option String) (http : Except Unit (Nat × Str))
    (connectOk : Bool) (interaction : Option Str) (writeOk : Bool)
    (hplat : ∃ v, dictGet dev "platform" = Except.ok v)
    (hhost : ∃ v, dictGet dev "hostip" = Except.ok v)
    (hname : ∃ v, dictGet dev "name" = Except.ok v)
    (hgroups : ∃ v, dictGet dev "groups" = Except.ok v) :
    (∃ b w, backup_device dev credApiKey http connectOk interaction true writeOk
      = Except.ok (b, w)) ∧
    ∀ results : List Bool,
      run_backup (results.map Except.ok)
        = Except.ok (results.countP (fun b => b), results.length) := by
  constructor
  · obtain ⟨pv, hp⟩ := hplat
    obtain ⟨hv, hh⟩ := hhost
    obtain ⟨nv, hn⟩ := hname
    obtain ⟨gv, hg⟩ := hgroups
    cases hres : backup_device dev credApiKey http connectOk interaction true writeOk with
    | error e => exact absurd hres (backup_device_no_error hp hh hn hg e)
    | ok bw =>
      obtain ⟨b, w⟩ := bw
      exact ⟨b, w, rfl⟩
  · intro results
    simp [run_backup, sumResults_map_ok, Except.map]

/-- C5 (witness): concrete run of the amended theorem. -/
theorem C5_orchestrator_errors_contained_witness :
    (∃ b w, backup_device
        [("platform", "cisco_ios"), ("hostip", "10.0.0.1"),
         ("name", "r1"), ("groups", "core")]
        none (Except.error ()) true (some ("hostname r1".toList)) true true
      = Except.ok (b, w)) ∧
    run_backup [Except.ok true, Except.ok false] = Except.ok (1, 2) := by
  have h := C5_orchestrator_errors_contained
    [("platform", "cisco_ios"), ("hostip", "10.0.0.1"),
     ("name", "r1"), ("groups", "core")]
    none (Except.error ()) true (some ("hostname r1".toList)) true
    ⟨_, rfl⟩ ⟨_, rfl⟩ ⟨_, rfl⟩ ⟨_, rfl⟩
  exact ⟨h.1, h.2 [true, false]⟩

/-- C6: a platform absent from the Command Profile Registry makes the
registry lookup raise `KeyError`, which `get_backup` catches and turns
into `None`; the device task returns an ordinary failed result without
raising, and the aggregation over that failure together with any other
results still produces the summary. -/
theorem C6_unsupported_platform (dev : Device) (p : String)
    (credApiKey : Option String) (http : Except Unit (Nat × Str))
    (connectOk : Bool) (interaction : Option Str) (mkdirOk writeOk : Bool)
    (hplat : dictGet dev "platform" = Except.ok p)
    (hreg : lookupRegistry p = none)
    (hhost : ∃ v, dictGet dev "hostip" = Except.ok v) :
    backup_device dev credApiKey http connectOk interaction mkdirOk writeOk
      = Except.ok (false, none) ∧
    ∀ others : List Bool,
      run_backup (Except.ok false :: others.map Except.ok)
        = Except.ok (others.countP (fun b => b), others.length + 1) := by
  obtain ⟨hv, hh⟩ := hhost
  have hpf : (p == "fortinet") = false := by
    cases hb : (p == "fortinet") with
    | false => rfl
    | true =>
      have hpe : p = "fortinet" := by simpa using hb
      rw [hpe] at hreg
      exact absurd hreg (by decide)
  constructor
  · cases connectOk with
    | false => simp [backup_device, hplat, hpf, hh]
    | true => simp [backup_device, hplat, hpf, hh, get_backup, hreg]
  · intro others
    simp [run_backup, sumResults, sumResults_map_ok, Except.map]

/-- C6 (witness): a device with the unregistered platform tag vyos fails
without raising, and a batch containing it still aggregates. -/
theorem C6_unsupported_platform_witness :
    backup_device [("platform", "vyos"), ("hostip", "1.1.1.1")]
      none (Except.error ()) true (some ("x".toList)) true true
      = Except.ok (false, none) ∧
    run_backup [Except.ok false, Except.ok true] = Except.ok (1, 2) := by
  have h := C6_unsupported_platform
    [("platform", "vyos"), ("hostip", "1.1.1.1")] "vyos"
    none (Except.error ()) true (some ("x".toList)) true true
    rfl rfl ⟨_, rfl⟩
  exact ⟨h.1, h.2 [true]⟩

/-- C7: on the API path with the device address present and a truthy API
key, an HTTP 200 response whose file write succeeds persists the
response body verbatim and the task succeeds; any other status, or a
transport error, makes the task fail with nothing written, regardless of
the filesystem; and when the in-`try` write after a 200 raises, the
exception is caught and the task fails with no complete file. -/
theorem C7_api_backup (dev : Device) (credApiKey : Option String) (k : String)
    (hhost : ∃ v, dictGet dev "hostip" = Except.ok v)
    (hkey : pyOr (findVal dev "api_key") credApiKey = some k)
    (hk : (k == "") = false)
    (hname : ∃ v, findVal dev "name" = some v)
    (hgroups : ∃ v, findVal dev "groups" = some v) :
    (∀ body : Str,
      fortinet_api_backup dev credApiKey (Except.ok (200, body)) true
        = Except.ok (true, some body)) ∧
    (∀ (status : Nat) (body : Str) (persistOk : Bool), status ≠ 200 →
      fortinet_api_backup dev credApiKey (Except.ok (status, body)) persistOk
        = Except.ok (false, none)) ∧
    (∀ persistOk : Bool,
      fortinet_api_backup dev credApiKey (Except.error ()) persistOk
        = Except.ok (false, none)) ∧
    (∀ body : Str,
      fortinet_api_backup dev credApiKey (Except.ok (200, body)) false
        = Except.ok (false, none)) := by
  obtain ⟨hv, hh⟩ := hhost
  obtain ⟨nv, hn⟩ := hname
  obtain ⟨gv, hg⟩ := hgroups
  refine ⟨?_, ?_, ?_, ?_⟩
  · intro body
    simp [fortinet_api_backup, hh, hkey, hk, hn, hg]
  · intro status body persistOk hs
    have hsb : (status == 200) = false := beq_eq_false_iff_ne.mpr hs
    simp [fortinet_api_backup, hh, hkey, hk, hsb]
  · intro persistOk
    simp [fortinet_api_backup, hh, hkey, hk]
  · intro body
    simp [fortinet_api_backup, hh, hkey, hk, hn, hg]

/-- C7 (witness): concrete device; 200 with a working filesystem
persists the body and succeeds, 403 and a transport error fail with no
file, and a write failure after 200 is caught and fails. -/
theorem C7_api_backup_witness :
    fortinet_api_backup
        [("hostip", "9.9.9.9"), ("name", "fw1"), ("groups", "fw"), ("api_key", "K")]
        none (Except.ok (200, "B".toList)) true
      = Except.ok (true, some ("B".toList)) ∧
    fortinet_api_backup
        [("hostip", "9.9.9.9"), ("name", "fw1"), ("groups", "fw"), ("api_key", "K")]
        none (Except.ok (403, "B".toList)) true
      = Except.ok (false, none) ∧
    fortinet_api_backup
        [("hostip", "9.9.9.9"), ("name", "fw1"), ("groups", "fw"), ("api_key", "K")]
        none (Except.error ()) true
      = Except.ok (false, none) ∧
    fortinet_api_backup
        [("hostip", "9.9.9.9"), ("name", "fw1"), ("groups", "fw"), ("api_key", "K")]
        none (Except.ok (200, "B".toList)) false
      = Except.ok (false, none) := by
  have h := C7_api_backup
    [("hostip", "9.9.9.9"), ("name", "fw1"), ("groups", "fw"), ("api_key", "K")]
    none "K" ⟨_, rfl⟩ rfl rfl ⟨_, rfl⟩ ⟨_, rfl⟩
  exact ⟨h.1 ("B".toList), h.2.1 403 ("B".toList) true (by decide),
    h.2.2.1 true, h.2.2.2 ("B".toList)⟩

/-- C8: a command failure inside `execute_commands` discards all output
accumulated so far (the function returns the empty string, never a
partial capture), and whenever a device task returns a failed result the
written-file component is empty — no partial configuration is persisted
on failure. -/
theorem C8_no_partial_persisted :
    (∀ results : List (Option Str), none ∈ results → execute_commands results = []) ∧
    (∀ (dev : Device) (credApiKey : Option String) (http : Except Unit (Nat × Str))
        (connectOk : Bool) (interaction : Option Str) (mkdirOk writeOk : Bool)
        (w : Option Str),
      backup_device dev credApiKey http connectOk interaction mkdirOk writeOk
        = Except.ok (false, w) → w = none) := by
  constructor
  · intro results h
    exact execute_commandsGo_none h []
  · intro dev credApiKey http connectOk interaction mkdirOk writeOk w h
    unfold backup_device at h
    repeat' split at h
    all_goals first
      | exact isSome_false_eq_none (fortinet_api_backup_shape h).symm
      | (injection h with h2
         rw [Prod.mk.injEq] at h2
         exact h2.2.symm.trans (isSome_false_eq_none h2.1))
      | simp_all

/-- C8 (witness): a failing second command yields the empty capture, and
a task failing at connection writes nothing. -/
theorem C8_no_partial_persisted_witness :
    execute_commands [some ("a".toList), none] = [] ∧ (none : Option Str) = none := by
  constructor
  · exact C8_no_partial_persisted.1 [some ("a".toList), none] (by simp)
  · exact C8_no_partial_persisted.2
      [("platform", "cisco_ios"), ("hostip", "10.0.0.1"),
       ("name", "r1"), ("groups", "core")]
      none (Except.error ()) false none true true none rfl

/-- C9: when every task completes with a boolean result, the summary is
emitted and its success count is exactly the number of results that are
`True`, never exceeding the total device count. -/
theorem C9_summary_counts (results : List Bool) :
    run_backup (results.map Except.ok)
      = Except.ok (results.countP (fun b => b), results.length) ∧
    results.countP (fun b => b) ≤ results.length := by
  constructor
  · simp [run_backup, sumResults_map_ok, Except.map]
  · exact List.countP_le_length _

/-- C10 (counterexample): a capture consisting of exactly the command
echo is non-empty before sanitization, so the emptiness check passes;
sanitization then reduces it to the empty string, which is persisted as
an empty file with success reported — contradicting the claim that an
empty capture is never persisted as a successful backup. -/
theorem C10_sanitized_empty_counterexample :
    clean_config_output ("show running-config".toList)
      (Commands.str ("show running-config".toList)) = [] ∧
    save_config ("show running-config".toList)
      (some (Commands.str ("show running-config".toList))) true true
      = Except.ok (some []) := ⟨rfl, rfl⟩

/-- C10 (amended): when the raw captured text — before sanitization — is
empty, `save_config` returns a failed result and writes no file; but
emptiness is only checked before sanitization, so every non-empty
capture that sanitization (applied, i.e. with a truthy commands
argument) reduces to the empty string is, when directory creation and
the write succeed, persisted as an empty file with success reported. -/
theorem C10_empty_capture :
    (∀ (commands : Option Commands) (mkdirOk writeOk : Bool),
      save_config [] commands mkdirOk writeOk = Except.ok none) ∧
    (∀ (config : Str) (cs : Commands), config ≠ [] →
      truthyCommands cs = true → clean_config_output config cs = [] →
      save_config config (some cs) true true = Except.ok (some [])) := by
  constructor
  · intro commands mkdirOk writeOk
    rfl
  · intro config cs hne htr hclean
    have hie : config.isEmpty = false := by
      cases config with
      | nil => exact absurd rfl hne
      | cons a t => rfl
    simp [save_config, hie, htr, hclean]

/-- C10 (witness): concrete runs of both clauses: the empty raw capture
fails with nothing written; the capture consisting of exactly the
command echo is sanitized to empty yet persisted with success. -/
theorem C10_empty_capture_witness :
    save_config [] none true true = Except.ok none ∧
    save_config ("show running-config".toList)
      (some (Commands.str ("show running-config".toList))) true true
      = Except.ok (some []) := by
  refine ⟨C10_empty_capture.1 none true true, ?_⟩
  exact C10_empty_capture.2 ("show running-config".toList)
    (Commands.str ("show running-config".toList)) (by decide) (by decide) rfl

end BackupServer

